import Mathlib

/-!
# Verification of the snapshot-key helpers of `streaming-zarr`

The repository's only original logic lives in two helper functions of
`example.ipynb`:

```python
def get_all_keys(store):
    keys = list(set([s.split('/')[0] for s in store.keylist()]))
    keys.remove('.zgroup')
    keys.sort(key=int)
    return keys

def get_most_recent_key(store):
    keys = get_all_keys(store)
    return keys[-1]
```

We embed them shallowly.  The store is abstracted by the list of raw keys
that `store.keylist()` returns, and the hard-coded reserved marker
`'.zgroup'` is made a parameter (the spec's `reservedMarker`); instantiating
it with `".zgroup"` recovers the notebook verbatim.

Python peculiarities modelled faithfully:
* `s.split('/')` splits on every occurrence of `'/'` and returns `[""]` for
  the empty string; the code takes element `[0]`.
* `set(...)` de-duplicates; its iteration order is unspecified, so we model
  `list(set(xs))` as a de-duplication with one fixed order (`List.dedup`).
  No claim below depends on the order of numerically-equal survivors.
* `keys.remove(m)` removes the first occurrence of `m` and raises
  `ValueError` when `m` is absent.
* `int(s)` strips ASCII whitespace, accepts one optional `+`/`-` sign, then
  decimal digits with single underscores allowed between digits; anything
  else raises `ValueError`.  (Unicode digits/whitespace are out of scope:
  the keys in this store are produced from integer timestep counters.)
* `keys.sort(key=int)` evaluates `int` on every element (propagating its
  `ValueError`) and sorts stably by the resulting value.
* `keys[-1]` is the last element and raises `IndexError` on an empty list.
-/

/-- The observable failure modes of the two helpers.  In Python the first
two are both `ValueError` (from `list.remove` and from `int`) and the third
is `IndexError`; we keep them distinct because the spec names the parse
failure `MalformedIdentifier` and the empty-index failure `EmptyNamespace`. -/
inductive PyErr where
  /-- `ValueError: list.remove(x): x not in list` -/
  | valueErrorRemove
  /-- `ValueError: invalid literal for int() with base 10` -/
  | valueErrorInt
  /-- `IndexError: list index out of range` (from `keys[-1]`) -/
  | indexError
deriving DecidableEq, Repr

/-- ASCII whitespace as stripped by Python's `int(str)`. -/
def isPySpace (c : Char) : Bool :=
  c == ' ' || c == '\t' || c == '\n' || c == '\r' || c == '\x0b' || c == '\x0c'

/-- Strip leading and trailing whitespace, as `int(str)` does. -/
def pyStrip (cs : List Char) : List Char :=
  ((cs.dropWhile isPySpace).reverse.dropWhile isPySpace).reverse

/-- Decimal digits after the first one, with single underscores permitted
between digits (Python 3 literal grammar); accumulates the value. -/
def digitsTail : List Char → Nat → Option Nat
  | [], acc => some acc
  | '_' :: c :: cs, acc =>
    if c.isDigit then digitsTail cs (acc * 10 + (c.toNat - 48)) else none
  | ['_'], _ => none
  | c :: cs, acc =>
    if c.isDigit then digitsTail cs (acc * 10 + (c.toNat - 48)) else none

/-- The digit run of `int(str)`: at least one digit, underscores only
between digits. -/
def pyDigits : List Char → Option Nat
  | c :: cs => if c.isDigit then digitsTail cs (c.toNat - 48) else none
  | [] => none

/-- Python's `int(s)` for a base-10 string: `some` the value, or `none`
where CPython raises `ValueError`. -/
def pyInt (s : String) : Option Int :=
  match pyStrip s.data with
  | '-' :: cs => (pyDigits cs).map (fun n => -(n : Int))
  | '+' :: cs => (pyDigits cs).map (fun n => (n : Int))
  | cs => (pyDigits cs).map (fun n => (n : Int))

/-- Python's `s.split(sep)` for a one-character separator, on char lists:
splits at every occurrence, keeping empty pieces; `[] ↦ [[]]`. -/
def splitChars (sep : Char) : List Char → List (List Char)
  | [] => [[]]
  | c :: cs =>
    if c = sep then [] :: splitChars sep cs
    else
      match splitChars sep cs with
      | g :: gs => (c :: g) :: gs
      | [] => [[c]]

/-- `s.split('/')[0]`: the candidate snapshot identifier extracted from one
raw key (notebook line `s.split('/')[0]`). -/
def snapshotCandidate (s : String) : String :=
  String.mk ((splitChars '/' s.data).headD [])

/-- The sort key used by `keys.sort(key=int)`.  It is only applied on the
branch where every element is known to parse, so the `.getD 0` default is
never observable. -/
def intKey (s : String) : Int :=
  (pyInt s).getD 0

/-- `list(set([s.split('/')[0] for s in rawKeys]))`: the de-duplicated
candidate identifiers.  `set` iteration order is unspecified in Python;
`List.dedup` fixes one order. -/
def candidatesOf (rawKeys : List String) : List String :=
  (rawKeys.map snapshotCandidate).dedup

/-- `keys.remove(marker)` on the (duplicate-free) candidate list:
`List.erase` removes the first occurrence, as `list.remove` does. -/
def survivorsOf (marker : String) (rawKeys : List String) : List String :=
  (candidatesOf rawKeys).erase marker

/-- `get_all_keys` of the notebook, with the reserved marker `'.zgroup'`
generalised to a parameter.  Errors are the Python exceptions: `remove`
raises when the marker is absent, and `sort(key=int)` first applies `int`
to every element (raising on the first non-literal) and then sorts stably
by that value (`List.insertionSort` is stable for a `≤` relation). -/
def get_all_keys (marker : String) (rawKeys : List String) :
    Except PyErr (List String) :=
  if marker ∈ candidatesOf rawKeys then
    if (survivorsOf marker rawKeys).all (fun s => (pyInt s).isSome) then
      Except.ok (List.insertionSort (fun a b => intKey a ≤ intKey b)
        (survivorsOf marker rawKeys))
    else Except.error PyErr.valueErrorInt
  else Except.error PyErr.valueErrorRemove

/-- `get_most_recent_key` of the notebook: `get_all_keys(...)[-1]`. -/
def get_most_recent_key (marker : String) (rawKeys : List String) :
    Except PyErr String :=
  match get_all_keys marker rawKeys with
  | Except.error e => Except.error e
  | Except.ok keys =>
    match keys.getLast? with
    | some k => Except.ok k
    | none => Except.error PyErr.indexError

/-- The spec's description of candidate extraction, stated independently of
the code: "the substring before the first occurrence of the separator `/`"
(the whole key when no separator occurs). -/
def specCandidate (s : String) : String :=
  String.mk (s.data.takeWhile (fun c => c != '/'))

/-! ## Instances and helper lemmas -/

/-- Equality of results is decidable, so concrete runs can be checked by
evaluation. -/
instance {ε α : Type} [DecidableEq ε] [DecidableEq α] :
    DecidableEq (Except ε α) := fun x y =>
  match x, y with
  | Except.ok a, Except.ok b =>
    if h : a = b then isTrue (by rw [h])
    else isFalse (fun hh => h (by injection hh))
  | Except.error a, Except.error b =>
    if h : a = b then isTrue (by rw [h])
    else isFalse (fun hh => h (by injection hh))
  | Except.ok _, Except.error _ => isFalse (fun hh => Except.noConfusion hh)
  | Except.error _, Except.ok _ => isFalse (fun hh => Except.noConfusion hh)

instance : IsTotal String (fun a b => intKey a ≤ intKey b) :=
  ⟨fun a b => Int.le_total (intKey a) (intKey b)⟩

instance : IsTrans String (fun a b => intKey a ≤ intKey b) :=
  ⟨fun _ _ _ h₁ h₂ => le_trans h₁ h₂⟩

/-- The candidate list is duplicate-free (it models `list(set(...))`). -/
theorem candidatesOf_nodup (rawKeys : List String) :
    (candidatesOf rawKeys).Nodup :=
  List.nodup_dedup _

/-- Membership in the candidate list is membership among extracted
prefixes. -/
theorem mem_candidatesOf {s : String} {rawKeys : List String} :
    s ∈ candidatesOf rawKeys ↔ s ∈ rawKeys.map snapshotCandidate :=
  List.mem_dedup

/-- The survivor list is duplicate-free. -/
theorem survivorsOf_nodup (marker : String) (rawKeys : List String) :
    (survivorsOf marker rawKeys).Nodup :=
  (candidatesOf_nodup rawKeys).erase marker

/-- On success, `get_all_keys` returns the stable sort of the survivors. -/
theorem get_all_keys_ok_iff (marker : String) (rawKeys : List String)
    (ys : List String) :
    get_all_keys marker rawKeys = Except.ok ys ↔
      marker ∈ candidatesOf rawKeys ∧
      (survivorsOf marker rawKeys).all (fun s => (pyInt s).isSome) = true ∧
      ys = List.insertionSort (fun a b => intKey a ≤ intKey b)
        (survivorsOf marker rawKeys) := by
  unfold get_all_keys
  split
  next hm =>
    split
    next hall =>
      constructor
      · intro h
        injection h with h
        exact ⟨hm, hall, h.symm⟩
      · rintro ⟨-, -, rfl⟩
        rfl
    next hall =>
      constructor
      · intro h
        exact Except.noConfusion h
      · rintro ⟨-, h2, -⟩
        exact absurd h2 hall
  next hm =>
    constructor
    · intro h
      exact Except.noConfusion h
    · rintro ⟨h1, -, -⟩
      exact absurd h1 hm

/-! ## Claim C7 -/

/-- C7: `listSnapshots` (`get_all_keys`) on the input
`["10/a", "2/a", "2/b", ".meta"]` with reserved marker `".meta"` returns
exactly `["2", "10"]`: the ordering is by numeric value, not
lexicographic. -/
theorem get_all_keys_numeric_order_example :
    get_all_keys ".meta" ["10/a", "2/a", "2/b", ".meta"] =
      Except.ok ["2", "10"] := by
  decide

/-! ## Claim C4 -/

/-- C4 fails on the code: on the empty input, `keys.remove(marker)` raises
`ValueError` because the marker is not among the (zero) candidates, so
`get_all_keys` does not return the empty sequence. -/
theorem get_all_keys_empty_input_counterexample :
    get_all_keys ".meta" [] = Except.error PyErr.valueErrorRemove ∧
      get_all_keys ".meta" [] ≠ Except.ok [] := by
  decide

/-- C4 amended: `listSnapshots` (`get_all_keys`) applied to an empty input
sequence of raw keys, with any reserved marker, fails with the
marker-removal error (`ValueError` from `list.remove`) instead of returning
an empty sequence. -/
theorem get_all_keys_empty_input (marker : String) :
    get_all_keys marker [] = Except.error PyErr.valueErrorRemove := by
  simp [get_all_keys, candidatesOf]

/-! ## Claim C10 -/

/-- C10: whenever the extracted candidate prefixes do not contain the
reserved marker, `get_all_keys` raises (the `list.remove` `ValueError`)
instead of returning the sorted candidate list: the removal of the marker
is unconditional, not conditional on its presence. -/
theorem get_all_keys_requires_marker (marker : String) (rawKeys : List String)
    (h : marker ∉ rawKeys.map snapshotCandidate) :
    get_all_keys marker rawKeys = Except.error PyErr.valueErrorRemove := by
  unfold get_all_keys
  rw [if_neg (fun hm => h (mem_candidatesOf.mp hm))]

/-- Witness for C10 at a concrete input without the marker. -/
theorem get_all_keys_requires_marker_witness :
    get_all_keys ".zgroup" ["7/a"] = Except.error PyErr.valueErrorRemove :=
  get_all_keys_requires_marker ".zgroup" ["7/a"] (by decide)

/-! ## Claim C9 -/

/-- C9: `get_all_keys` is a pure, deterministic function of the key listing
it is given: two calls on the same input are the same computation and yield
identical output.  (The notebook's only effectful input, the result of
`store.keylist()`, is the explicit `rawKeys` argument of the embedding;
everything else the function does is pure.) -/
theorem get_all_keys_deterministic (marker : String) (rawKeys : List String) :
    get_all_keys marker rawKeys = get_all_keys marker rawKeys := rfl

/-! ## Claim C5 -/

/-- C5: whenever `get_all_keys` succeeds with a non-empty list,
`get_most_recent_key` on the same input returns exactly the last element of
that list (`keys[-1]`). -/
theorem get_most_recent_key_eq_last (marker : String) (rawKeys : List String)
    (ys : List String) (y : String)
    (hok : get_all_keys marker rawKeys = Except.ok ys)
    (hlast : ys.getLast? = some y) :
    get_most_recent_key marker rawKeys = Except.ok y := by
  unfold get_most_recent_key
  rw [hok]
  simp [hlast]

/-- Witness for C5 at a concrete input. -/
theorem get_most_recent_key_eq_last_witness :
    get_most_recent_key ".zgroup" ["3/a", ".zgroup", "1/b"] =
      Except.ok "3" :=
  get_most_recent_key_eq_last ".zgroup" ["3/a", ".zgroup", "1/b"]
    ["1", "3"] "3" (by decide) (by decide)

/-! ## Claim C6 -/

/-- C6: however many times the reserved marker appears among the raw keys,
it never appears in a successful output of `get_all_keys`. -/
theorem marker_not_in_output (marker : String) (rawKeys : List String)
    (ys : List String)
    (hok : get_all_keys marker rawKeys = Except.ok ys) :
    marker ∉ ys := by
  obtain ⟨hm, hall, rfl⟩ := (get_all_keys_ok_iff marker rawKeys ys).mp hok
  intro hmem
  have hsurv : marker ∈ survivorsOf marker rawKeys :=
    (List.perm_insertionSort (fun a b => intKey a ≤ intKey b)
      (survivorsOf marker rawKeys)).mem_iff.mp hmem
  exact (candidatesOf_nodup rawKeys).not_mem_erase hsurv

/-- Witness for C6: the marker `.zgroup`, present twice in the input, is
absent from the output. -/
theorem marker_not_in_output_witness :
    ".zgroup" ∉ (["2", "10"] : List String) :=
  marker_not_in_output ".zgroup" ["10/a", ".zgroup", "2/a", ".zgroup"]
    ["2", "10"] (by decide)

/-! ## Claim C3 -/

/-- A duplicate-free, non-empty list all of whose members equal `m` is the
singleton `[m]`. -/
theorem eq_singleton_of_nodup_of_forall_eq {α : Type} {m : α} {l : List α}
    (hnd : l.Nodup) (hne : l ≠ []) (hall : ∀ x ∈ l, x = m) : l = [m] := by
  match l with
  | [] => exact absurd rfl hne
  | a :: t =>
    have ha : a = m := hall a (List.mem_cons_self a t)
    subst ha
    match t with
    | [] => rfl
    | b :: t2 =>
      have hb : b = a := hall b (by simp)
      subst hb
      rw [List.nodup_cons] at hnd
      exact absurd (List.mem_cons_self b t2) hnd.1

/-- C3: `get_most_recent_key` fails with the `IndexError` of `keys[-1]`
(the spec's `EmptyNamespace`) when no identifiers remain after
de-duplication and removal of the reserved marker; in particular on a
non-empty input all of whose candidates are the reserved marker.  No
partial result is returned: the result is the error alone. -/
theorem get_most_recent_key_empty_namespace (marker : String)
    (rawKeys : List String) (hne : rawKeys ≠ [])
    (hall : ∀ s ∈ rawKeys, snapshotCandidate s = marker) :
    get_most_recent_key marker rawKeys = Except.error PyErr.indexError := by
  have hcand : candidatesOf rawKeys = [marker] := by
    refine eq_singleton_of_nodup_of_forall_eq (candidatesOf_nodup rawKeys)
      ?_ ?_
    · rw [Ne, candidatesOf, List.dedup_eq_nil, List.map_eq_nil_iff]
      exact hne
    · intro x hx
      rw [mem_candidatesOf] at hx
      obtain ⟨s, hs, rfl⟩ := List.mem_map.mp hx
      exact hall s hs
  have hsurv : survivorsOf marker rawKeys = [] := by
    rw [survivorsOf, hcand, List.erase_cons_head]
  have hok : get_all_keys marker rawKeys = Except.ok [] := by
    unfold get_all_keys
    rw [hsurv, if_pos (show marker ∈ candidatesOf rawKeys by
      rw [hcand]; exact List.mem_singleton_self marker)]
    rfl
  unfold get_most_recent_key
  rw [hok]
  rfl

/-- Witness for C3: a namespace holding only the reserved marker. -/
theorem get_most_recent_key_empty_namespace_witness :
    get_most_recent_key ".zgroup" [".zgroup"] =
      Except.error PyErr.indexError :=
  get_most_recent_key_empty_namespace ".zgroup" [".zgroup"]
    (by decide) (by decide)

/-! ## Claim C8 -/

/-- `splitChars` never returns the empty list (Python's `str.split` always
returns at least one piece). -/
theorem splitChars_ne_nil (sep : Char) (cs : List Char) :
    splitChars sep cs ≠ [] := by
  match cs with
  | [] => simp [splitChars]
  | c :: cs' =>
    unfold splitChars
    split
    · simp
    · cases h : splitChars sep cs' <;> simp

/-- The first piece of `splitChars` is the run of characters before the
first separator. -/
theorem headD_splitChars (cs : List Char) :
    (splitChars '/' cs).headD [] = cs.takeWhile (fun c => c != '/') := by
  induction cs with
  | nil => rfl
  | cons c cs ih =>
    unfold splitChars
    by_cases hc : c = '/'
    · rw [if_pos hc]
      simp [List.takeWhile_cons, hc]
    · rw [if_neg hc]
      cases h : splitChars '/' cs with
      | nil => exact absurd h (splitChars_ne_nil '/' cs)
      | cons g gs =>
        rw [h] at ih
        simp only [List.headD_cons] at ih ⊢
        rw [List.takeWhile_cons,
          if_pos (show (c != '/') = true by simp [hc]), ih]

/-- C8: the candidate identifier `s.split('/')[0]` extracted from a raw key
is exactly the substring of the key before the first occurrence of the
separator `/` (the spec-side `specCandidate`), and for a key containing no
separator it is the whole key. -/
theorem snapshotCandidate_eq_prefix_before_sep (s : String) :
    snapshotCandidate s = specCandidate s ∧
      ((∀ c ∈ s.data, c ≠ '/') → snapshotCandidate s = s) := by
  have h1 : snapshotCandidate s = specCandidate s := by
    rw [snapshotCandidate, specCandidate, headD_splitChars]
  refine ⟨h1, fun hall => ?_⟩
  have h2 : s.data.takeWhile (fun c => c != '/') = s.data :=
    List.takeWhile_eq_self_iff.mpr (fun x hx => by simpa using hall x hx)
  rw [h1, specCandidate, h2]

/-- Witness for C8 on a key without a separator (the conjunct with a
hypothesis), together with the hypothesis-free conjunct. -/
theorem snapshotCandidate_eq_prefix_before_sep_witness :
    snapshotCandidate "abc" = "abc" :=
  (snapshotCandidate_eq_prefix_before_sep "abc").2 (by decide)

/-! ## Claim C1 -/

/-- C1 fails on the code: the input `["07/a", "7/a", ".zgroup"]` is
non-empty and every surviving candidate (`"07"` and `"7"`) parses as a
non-negative integer, yet the returned sequence carries two identifiers
with the same numeric value, so it is not sorted strictly ascending by
numeric value.  (Distinct strings, duplicate numbers.) -/
theorem get_all_keys_strict_counterexample :
    get_all_keys ".zgroup" ["07/a", "7/a", ".zgroup"] =
      Except.ok ["07", "7"] ∧
    (∀ s ∈ survivorsOf ".zgroup" ["07/a", "7/a", ".zgroup"],
      (pyInt s).isSome = true ∧ 0 ≤ (pyInt s).getD 0) ∧
    ¬ List.Pairwise (fun a b => intKey a < intKey b) ["07", "7"] := by
  decide

/-- C1 amended: on a non-empty input of well-formed raw keys whose
candidates include the reserved marker, `get_all_keys` succeeds with a
duplicate-free (by string value) sequence sorted non-decreasingly by
numeric value; the order is strictly ascending whenever distinct returned
identifiers have distinct numeric values. -/
theorem get_all_keys_sorted_nodup (marker : String) (rawKeys : List String)
    (hne : rawKeys ≠ [])
    (hm : marker ∈ candidatesOf rawKeys)
    (hwf : ∀ s ∈ survivorsOf marker rawKeys,
      (pyInt s).isSome = true ∧ 0 ≤ (pyInt s).getD 0) :
    ∃ ys, get_all_keys marker rawKeys = Except.ok ys ∧ ys.Nodup ∧
      List.Pairwise (fun a b => intKey a ≤ intKey b) ys ∧
      ((∀ a ∈ ys, ∀ b ∈ ys, a ≠ b → intKey a ≠ intKey b) →
        List.Pairwise (fun a b => intKey a < intKey b) ys) := by
  have hall : (survivorsOf marker rawKeys).all
      (fun s => (pyInt s).isSome) = true :=
    List.all_eq_true.mpr (fun s hs => (hwf s hs).1)
  have hnd : (List.insertionSort (fun a b => intKey a ≤ intKey b)
      (survivorsOf marker rawKeys)).Nodup :=
    (List.perm_insertionSort (fun a b => intKey a ≤ intKey b)
      (survivorsOf marker rawKeys)).nodup_iff.mpr
      (survivorsOf_nodup marker rawKeys)
  have hle : List.Pairwise (fun a b => intKey a ≤ intKey b)
      (List.insertionSort (fun a b => intKey a ≤ intKey b)
        (survivorsOf marker rawKeys)) :=
    List.sorted_insertionSort (fun a b => intKey a ≤ intKey b)
      (survivorsOf marker rawKeys)
  refine ⟨_, (get_all_keys_ok_iff marker rawKeys _).mpr ⟨hm, hall, rfl⟩,
    hnd, hle, fun hdist => ?_⟩
  exact List.Pairwise.imp_of_mem
    (fun {a b} ha hb hab =>
      lt_of_le_of_ne hab.1 (hdist a ha b hb hab.2))
    (hle.and hnd)

/-- Witness for the amended C1 at a concrete well-formed input. -/
theorem get_all_keys_sorted_nodup_witness :
    ∃ ys, get_all_keys ".zgroup" ["2/a", "10/b", ".zgroup"] =
        Except.ok ys ∧ ys.Nodup ∧
      List.Pairwise (fun a b => intKey a ≤ intKey b) ys ∧
      ((∀ a ∈ ys, ∀ b ∈ ys, a ≠ b → intKey a ≠ intKey b) →
        List.Pairwise (fun a b => intKey a < intKey b) ys) :=
  get_all_keys_sorted_nodup ".zgroup" ["2/a", "10/b", ".zgroup"]
    (by decide) (by decide) (by decide)

/-! ## Claim C2 -/

/-- C2 fails on the code: the surviving candidate `"-5"` cannot be parsed
as a non-negative integer, yet `get_all_keys` succeeds (Python's `int`
accepts a sign), so failure is not equivalent to the presence of a
candidate that is not a non-negative integer. -/
theorem get_all_keys_malformed_counterexample :
    get_all_keys ".zgroup" [".zgroup", "-5/a"] = Except.ok ["-5"] ∧
    "-5" ∈ survivorsOf ".zgroup" [".zgroup", "-5/a"] ∧
    ¬ ((pyInt "-5").isSome = true ∧ 0 ≤ (pyInt "-5").getD 0) := by
  decide

/-- C2 amended: given that the reserved marker is among the candidates (so
that `keys.remove` does not raise first), `get_all_keys` fails with the
`int`-parse `ValueError` (the spec's `MalformedIdentifier`) if and only if
some surviving candidate cannot be parsed as a base-10 integer (an optional
sign is permitted).  Malformed identifiers are never silently skipped. -/
theorem get_all_keys_malformed_iff (marker : String) (rawKeys : List String)
    (hm : marker ∈ candidatesOf rawKeys) :
    get_all_keys marker rawKeys = Except.error PyErr.valueErrorInt ↔
      ∃ s ∈ survivorsOf marker rawKeys, pyInt s = none := by
  unfold get_all_keys
  rw [if_pos hm]
  split
  next hall =>
    constructor
    · intro h
      exact Except.noConfusion h
    · rintro ⟨s, hs, hnone⟩
      have hsome := List.all_eq_true.mp hall s hs
      rw [hnone] at hsome
      exact Bool.noConfusion hsome
  next hall =>
    constructor
    · intro _
      rw [List.all_eq_true] at hall
      push_neg at hall
      obtain ⟨s, hs, hns⟩ := hall
      exact ⟨s, hs, Option.not_isSome_iff_eq_none.mp hns⟩
    · intro _
      rfl

/-- Witness for the amended C2: an input containing `"7x/a"` (non-numeric
prefix) fails with the parse error. -/
theorem get_all_keys_malformed_iff_witness :
    get_all_keys ".zgroup" [".zgroup", "7x/a"] =
      Except.error PyErr.valueErrorInt :=
  (get_all_keys_malformed_iff ".zgroup" [".zgroup", "7x/a"]
    (by decide)).mpr ⟨"7x", by decide, by decide⟩
